import Mathlib

/-!
Verification development for the `setup.py` configuration synchronizer.

The Python program is shallowly embedded as follows:
* file contents are `String`s; the filesystem is a partial map `String → Option String`
  together with a set of existing directories `String → Bool`;
* the persisted sync-state store (`.sync_state.json`) is modelled as a separate
  `disk` component holding an already-parsed `SyncState` (load/save of JSON is
  modelled as reading/writing this component; both are total here, while write
  and rename of ordinary files may fail according to a fault map `writeFails`,
  modelling OSError on I/O);
* the content digest (`hashlib.md5`) is an abstract parameter `md5 : String → String`
  of the syncer: every theorem below holds for an arbitrary digest function;
* the interactive confirmation prompt is modelled by a caller-supplied answer
  (`answers : String → Bool`, keyed by the relative path of the file being synced);
* relative paths are lists of path segments; absolute paths are the strings
  obtained by joining them under a root, exactly as `pathlib` prints them.

Python exceptions are modelled with `Except String` / `Option`: an `Except.error`
or a `none` outcome marks a raised exception, carrying a message naming the
Python exception it mirrors.
-/

/-- One record of the sync-state store: the Python dict
`{"hash": ..., "last sync timestamp": ..., "sync reason": ...}` as written by
`_validate_exclude` (entries created by the program always carry all three keys). -/
structure StateEntry where
  hash : String
  timestamp : String
  reason : String
  deriving DecidableEq, Repr

/-- The in-memory sync-state store: absolute source path → entry. -/
abbrev SyncState := String → Option StateEntry

/-- `state[key] = entry` (pointwise-functional update of the store). -/
def setState (st : SyncState) (key : String) (e : StateEntry) : SyncState :=
  fun q => if q = key then some e else st q

/-- The `Policy` enum of `setup.py`. -/
inductive Policy where
  | APPEND
  | OVERWRITE
  | PREPEND_SOURCE_STATEMENT
  deriving DecidableEq, Repr

/-- The module-level `EXCLUDE_PATTERNS` list of `setup.py`. -/
def EXCLUDE_PATTERNS : List String :=
  [".git/", "__pycache__/", "debug_home/", ".gitignore", ".sync_state.json",
   "setup.py", "setup.sh", "README.md"]

/-- Join relative-path segments the way `str(PurePosixPath(...))` prints them
(the empty relative path prints as "."). -/
def joinSegs : List String → String
  | [] => "."
  | [s] => s
  | s :: rest => s ++ "/" ++ joinSegs rest

/-- `relative_path.parents` as strings: for a path of n segments these are the
joins of its first k segments for k = 0, ..., n-1 (Python lists them innermost
first; only membership matters here). -/
def parentChain (rel : List String) : List String :=
  (List.range rel.length).map (fun k => joinSegs (List.take k rel))

/-- `relative_path.match(pattern)` for the wildcard-free, slash-free,
single-component patterns occurring in `EXCLUDE_PATTERNS`: such a pattern
matches exactly when the final path component equals it. -/
def relMatch (rel : List String) (pattern : String) : Bool :=
  match rel.getLast? with
  | some name => name == pattern
  | none => false

/-- Python `pattern.endswith("/")`: the final character is a slash. -/
def endsWithSlash (pattern : String) : Bool :=
  pattern.data.getLast? == some '/'

/-- Python `pattern[:-1]`: the pattern without its final character. -/
def dropLastChar (pattern : String) : String :=
  String.mk pattern.data.dropLast

/-- The exclude-pattern loop of `_validate_exclude`: a pattern ending in "/"
is compared (with its trailing slash dropped) against `str(part)` for every
`part` in `relative_path.parents`; any other pattern goes through
`relative_path.match`. -/
def matchesExcludePattern (patterns : List String) (rel : List String) : Bool :=
  patterns.any (fun pattern =>
    if endsWithSlash pattern then
      (parentChain rel).any (fun par => par == dropLastChar pattern)
    else
      relMatch rel pattern)

/-- The absolute path of a file with segments `segs` under root `root`. -/
def pathUnder (root : String) (segs : List String) : String :=
  root ++ "/" ++ joinSegs segs

/-- The absolute path of the DIRECTORY with segments `segs` under `root`
(the root itself when `segs` is empty). -/
def dirPathUnder (root : String) (segs : List String) : String :=
  match segs with
  | [] => root
  | _ => root ++ "/" ++ joinSegs segs

/-- The `ConfigSyncer` object: its constructor configuration, the abstract
content digest, and the I/O fault map used to model OSError on writes/renames. -/
structure ConfigSyncer where
  targetDir : String
  configsDir : String
  md5 : String → String
  defaultPolicy : Policy
  specificPolicies : List (String × Policy)
  excludePatterns : List String
  writeFails : String → Bool

/-- Absolute source path of a candidate: `configs_dir_path / relative_path`. -/
def sourcePathOf (sy : ConfigSyncer) (rel : List String) : String :=
  pathUnder sy.configsDir rel

/-- Absolute target path of a candidate: `target_dir_path / relative_path`. -/
def targetPathOf (sy : ConfigSyncer) (rel : List String) : String :=
  pathUnder sy.targetDir rel

/-- Staging path: `target_file.with_suffix(target_file.suffix + ".tmp_sync")`,
i.e. the target path with ".tmp_sync" appended. -/
def tmpPathOf (sy : ConfigSyncer) (rel : List String) : String :=
  targetPathOf sy rel ++ ".tmp_sync"

/-- The chain of directories `target_file.parent.mkdir(parents=True, exist_ok=True)`
creates or finds: every proper prefix of the target path, from the target root down. -/
def targetParentChain (sy : ConfigSyncer) (rel : List String) : List String :=
  (List.range rel.length).map (fun k => dirPathUnder sy.targetDir (List.take k rel))

/-- Worker for `readLines`: Python `readlines` splitting, over the character list. -/
def splitLinesAux : List Char → List Char → List String
  | acc, [] => if acc.isEmpty then [] else [String.mk acc]
  | acc, c :: rest =>
    if c = '\n' then String.mk (acc ++ ['\n']) :: splitLinesAux [] rest
    else splitLinesAux (acc ++ [c]) rest

/-- Python `f.readlines()`: split after every newline, keeping the newline on
each line; a final fragment without a newline is kept, an empty one is not. -/
def readLines (s : String) : List String :=
  splitLinesAux [] s.data

/-- The `expected_statement` f-string: `source "<absolute source path>"` plus newline. -/
def directiveLine (srcPath : String) : String :=
  "source \"" ++ srcPath ++ "\"\n"

/-- The `source_statement` f-string: the two-line header (with no trailing newline). -/
def sourceStatement (srcPath : String) : String :=
  "# Source personal configs\nsource \"" ++ srcPath ++ "\""

/-- The world the program acts on: regular files, directories, and the on-disk
(sync-state-file) store. -/
structure World where
  files : String → Option String
  dirs : String → Bool
  disk : SyncState

/-- `path.write_text(c)` (the fault map is consulted separately). -/
def World.writeFile (w : World) (p c : String) : World :=
  World.mk (fun q => if q = p then some c else w.files q) w.dirs w.disk

/-- `path.unlink()`. -/
def World.removeFile (w : World) (p : String) : World :=
  World.mk (fun q => if q = p then none else w.files q) w.dirs w.disk

/-- `path.mkdir(exist_ok=True)` for a single directory. -/
def World.mkdir (w : World) (p : String) : World :=
  World.mk w.files (fun q => if q = p then true else w.dirs q) w.disk

/-- `_save_sync_state`: persist the given store to the state file. -/
def World.setDisk (w : World) (st : SyncState) : World :=
  World.mk w.files w.dirs st

/-- `mkdir(parents=True, exist_ok=True)`: create every directory in the chain. -/
def mkdirAll (w : World) : List String → World
  | [] => w
  | p :: rest => mkdirAll (World.mkdir w p) rest

namespace ConfigSyncer

/-- Policy lookup in `sync` / `_validate_expected_condition`:
`specific_policies.get(str(relative_path), default_policy)`. -/
def resolvePolicy (sy : ConfigSyncer) (rel : List String) : Policy :=
  match List.lookup (joinSegs rel) sy.specificPolicies with
  | some p => p
  | none => sy.defaultPolicy

/-- `_validate_expected_condition`. Note that for `PREPEND_SOURCE_STATEMENT`
the access `target_lines[1]` raises IndexError when the target has fewer than
two lines; this is modelled by the error outcome. -/
def validate_expected_condition (sy : ConfigSyncer) (fs : String → Option String)
    (rel : List String) : Except String Bool :=
  match sy.resolvePolicy rel with
  | Policy.PREPEND_SOURCE_STATEMENT =>
    match fs (targetPathOf sy rel) with
    | none => Except.error "IOError: cannot open target"
    | some t =>
      match (readLines t).get? 1 with
      | none => Except.error "IndexError: list index out of range"
      | some line => Except.ok (line == directiveLine (sourcePathOf sy rel))
  | _ =>
    match fs (sourcePathOf sy rel), fs (targetPathOf sy rel) with
    | some sc, some tc => Except.ok (sy.md5 sc == sy.md5 tc)
    | _, _ => Except.error "IOError: cannot read file"

/-- The "sync reason" string for a brand-new file. -/
def reasonNewFile : String := "New file to be synced"

/-- The "sync reason" string for a source modified since last sync. -/
def reasonModified : String := "Source File is modified (hash mismatch) since last sync"

/-- The "sync reason" string for a missing target (sic, as spelled in the program). -/
def reasonTargetMissing : String := "Target file dose not exist or is deleted since last sync"

/-- The "sync reason" string for a target failing the expected condition. -/
def reasonCondition : String := "Target file does not meet the expected condition"

/-- `_validate_exclude`: returns `(excluded?, updated state)`; an error models
an exception escaping the method (unreadable source, or the IndexError of
`_validate_expected_condition`). -/
def validate_exclude (sy : ConfigSyncer) (fs : String → Option String)
    (state : SyncState) (ts : String) (rel : List String) :
    Except String (Bool × SyncState) :=
  if matchesExcludePattern sy.excludePatterns rel then Except.ok (true, state)
  else
    match fs (sourcePathOf sy rel) with
    | none => Except.error "IOError: cannot read source"
    | some sc =>
      match state (sourcePathOf sy rel) with
      | none =>
        Except.ok (false, setState state (sourcePathOf sy rel)
          (StateEntry.mk (sy.md5 sc) ts reasonNewFile))
      | some entry =>
        if entry.hash != sy.md5 sc then
          Except.ok (false, setState state (sourcePathOf sy rel)
            (StateEntry.mk (sy.md5 sc) ts reasonModified))
        else if (fs (targetPathOf sy rel)).isNone then
          Except.ok (false, setState state (sourcePathOf sy rel)
            (StateEntry.mk entry.hash ts reasonTargetMissing))
        else
          match sy.validate_expected_condition fs rel with
          | Except.error e => Except.error e
          | Except.ok cond =>
            if cond then Except.ok (true, state)
            else Except.ok (false, setState state (sourcePathOf sy rel)
              (StateEntry.mk entry.hash ts reasonCondition))

/-- `get_syncing_files` over a given enumeration of the regular files below the
configs root: the candidate list plus the mutated state; `none` models an
exception raised by `_validate_exclude` crashing the run. -/
def get_syncing_files (sy : ConfigSyncer) (fs : String → Option String)
    (state : SyncState) (ts : String) : List (List String) →
    Option (List (List String) × SyncState)
  | [] => some ([], state)
  | rel :: rest =>
    match sy.validate_exclude fs state ts rel with
    | Except.error _ => none
    | Except.ok (true, st1) => sy.get_syncing_files fs st1 ts rest
    | Except.ok (false, st1) =>
      (sy.get_syncing_files fs st1 ts rest).map (fun pr => (rel :: pr.1, pr.2))

/-- `_sync_by_policy`: stage the merged content for one candidate into its
staging file. Result `(some true, w)` = success, `(some false, w)` = operator
declined ("user-aborted"), `(none, w)` = exception raised (unreadable source or
failing staging write), with `w` the world at that point. -/
def sync_by_policy (sy : ConfigSyncer) (w : World) (rel : List String)
    (force : Bool) (answer : Bool) : Option Bool × World :=
  let w1 := mkdirAll w (targetParentChain sy rel)
  match w1.files (sourcePathOf sy rel) with
  | none => (none, w1)
  | some appendText =>
    match w1.files (targetPathOf sy rel) with
    | some originText =>
      if !force && !answer then (some false, w1)
      else
        match sy.resolvePolicy rel with
        | Policy.APPEND =>
          if sy.writeFails (tmpPathOf sy rel) then (none, w1)
          else (some true, w1.writeFile (tmpPathOf sy rel) (originText ++ "\n\n" ++ appendText))
        | Policy.OVERWRITE =>
          if sy.writeFails (tmpPathOf sy rel) then (none, w1)
          else (some true, w1.writeFile (tmpPathOf sy rel) appendText)
        | Policy.PREPEND_SOURCE_STATEMENT =>
          if (readLines originText).length < 2 ||
              (readLines originText).get? 1 != some (directiveLine (sourcePathOf sy rel)) then
            if sy.writeFails (tmpPathOf sy rel) then (none, w1)
            else (some true, w1.writeFile (tmpPathOf sy rel)
              (sourceStatement (sourcePathOf sy rel) ++ "\n\n" ++ originText))
          else (some true, w1)
    | none =>
      if !force && !answer then (some false, w1)
      else
        if sy.writeFails (tmpPathOf sy rel) then (none, w1)
        else
          match sy.resolvePolicy rel with
          | Policy.PREPEND_SOURCE_STATEMENT =>
            (some true, w1.writeFile (tmpPathOf sy rel) (sourceStatement (sourcePathOf sy rel)))
          | _ => (some true, w1.writeFile (tmpPathOf sy rel) appendText)

/-- The staging loop of `sync`: process the candidates in order, recording the
per-file `synced` flag; the Bool result is true when an exception interrupted
the loop (the flags of unprocessed files stay at their initialized False and
are irrelevant afterwards). -/
def stageAll (sy : ConfigSyncer) (force : Bool) (answers : String → Bool) :
    World → List (List String) → Bool × List (List String × Bool) × World
  | w, [] => (false, [], w)
  | w, rel :: rest =>
    match sy.sync_by_policy w rel force (answers (joinSegs rel)) with
    | (none, w1) => (true, [], w1)
    | (some b, w1) =>
      match sy.stageAll force answers w1 rest with
      | (err, flags, w2) => (err, (rel, b) :: flags, w2)

/-- The promotion loop of `sync`: `if tmp_target.exists(): tmp_target.rename(target)`
for each candidate; the Bool result is true when a rename raised. -/
def promoteAll (sy : ConfigSyncer) : World → List (List String) → Bool × World
  | w, [] => (false, w)
  | w, rel :: rest =>
    match w.files (tmpPathOf sy rel) with
    | none => sy.promoteAll w rest
    | some c =>
      if sy.writeFails (targetPathOf sy rel) then (true, w)
      else
        sy.promoteAll
          (World.mk
            (fun q => if q = tmpPathOf sy rel then none
              else if q = targetPathOf sy rel then some c else w.files q)
            w.dirs w.disk)
          rest

/-- The `finally` block of `sync`: `if tmp_target.exists(): tmp_target.unlink()`
for every staging path. -/
def cleanupTmps : World → List String → World
  | w, [] => w
  | w, p :: rest =>
    cleanupTmps (if (w.files p).isSome then w.removeFile p else w) rest

/-- The dict comprehension `{str(f): self.sync_state[str(f)] for f in source_files
if synced[f]}`; `none` models the KeyError raised when a synced file has no
in-memory state entry. -/
def updatedStates (sy : ConfigSyncer) (mem : SyncState) :
    List (List String × Bool) → Option (List (String × StateEntry))
  | [] => some []
  | (rel, b) :: rest =>
    if b then
      match mem (sourcePathOf sy rel) with
      | none => none
      | some e =>
        (sy.updatedStates mem rest).map (fun l => (sourcePathOf sy rel, e) :: l)
    else sy.updatedStates mem rest

/-- `dict.update` of the reloaded store with the computed updates. -/
def applyUpdates (st : SyncState) : List (String × StateEntry) → SyncState
  | [] => st
  | (k, e) :: rest => applyUpdates (setState st k e) rest

/-- `ConfigSyncer.sync` over a candidate list: returns the process-visible
result code, the final world, and the final in-memory state.  Mirrors the
try/except/finally structure: stage all candidates, promote on full success,
then recompute + persist the state store; any exception yields result 1; the
staging files are cleaned up on every exit path. -/
def sync (sy : ConfigSyncer) (force : Bool) (answers : String → Bool)
    (w : World) (mem : SyncState) (rels : List (List String)) :
    Nat × World × SyncState :=
  let tmps := rels.map (fun rel => tmpPathOf sy rel)
  match sy.stageAll force answers w rels with
  | (true, _, w1) => (1, cleanupTmps w1 tmps, mem)
  | (false, flags, w1) =>
    match sy.promoteAll w1 rels with
    | (true, w2) => (1, cleanupTmps w2 tmps, mem)
    | (false, w2) =>
      match sy.updatedStates mem flags with
      | none => (1, cleanupTmps w2 tmps, mem)
      | some upd =>
        let mem2 := applyUpdates w2.disk upd
        (0, cleanupTmps (w2.setDisk mem2) tmps, mem2)

end ConfigSyncer

open ConfigSyncer

/-! ### Basic lemmas about the world model -/

theorem files_mkdirAll (l : List String) (w : World) : (mkdirAll w l).files = w.files := by
  induction l generalizing w with
  | nil => rfl
  | cons p rest ih => simpa [mkdirAll, World.mkdir] using ih (w.mkdir p)

theorem disk_mkdirAll (l : List String) (w : World) : (mkdirAll w l).disk = w.disk := by
  induction l generalizing w with
  | nil => rfl
  | cons p rest ih => simpa [mkdirAll, World.mkdir] using ih (w.mkdir p)

theorem dirs_mkdirAll_mono (l : List String) (w : World) (q : String)
    (h : w.dirs q = true) : (mkdirAll w l).dirs q = true := by
  induction l generalizing w with
  | nil => exact h
  | cons p rest ih =>
    refine ih (w.mkdir p) ?_
    simp only [World.mkdir]
    by_cases hq : q = p <;> simp [hq, h]

theorem dirs_mkdirAll_of_mem (l : List String) (w : World) (p : String)
    (h : p ∈ l) : (mkdirAll w l).dirs p = true := by
  induction l generalizing w with
  | nil => cases h
  | cons a rest ih =>
    rcases List.mem_cons.mp h with h1 | h2
    · subst h1
      exact dirs_mkdirAll_mono rest (w.mkdir p) p (by simp [World.mkdir])
    · exact ih (w.mkdir a) h2

theorem setState_self (st : SyncState) (k : String) (e : StateEntry) :
    setState st k e k = some e := by
  simp [setState]

theorem setState_ne (st : SyncState) (k : String) (e : StateEntry) (q : String)
    (h : q ≠ k) : setState st k e q = st q := by
  simp [setState, h]

theorem target_ne_tmp (sy : ConfigSyncer) (rel : List String) :
    targetPathOf sy rel ≠ tmpPathOf sy rel := by
  intro h
  have hlen := congrArg String.length h
  have h9 : (".tmp_sync" : String).length = 9 := rfl
  simp only [tmpPathOf, String.length_append, h9] at hlen
  omega

theorem cleanupTmps_disk (ps : List String) (w : World) :
    (cleanupTmps w ps).disk = w.disk := by
  induction ps generalizing w with
  | nil => rfl
  | cons p rest ih =>
    simp only [ConfigSyncer.cleanupTmps]
    rw [ih]
    by_cases h : (w.files p).isSome <;> simp [h, World.removeFile]

theorem cleanupTmps_files_ne (ps : List String) (w : World) (q : String)
    (hq : q ∉ ps) : (cleanupTmps w ps).files q = w.files q := by
  induction ps generalizing w with
  | nil => rfl
  | cons p rest ih =>
    have hqp : q ≠ p := fun h => hq (h ▸ List.mem_cons_self p rest)
    have hqr : q ∉ rest := fun h => hq (List.mem_cons_of_mem p h)
    simp only [ConfigSyncer.cleanupTmps]
    rw [ih _ hqr]
    by_cases h : (w.files p).isSome <;> simp [h, World.removeFile, hqp]

theorem cleanupTmps_files_none (ps : List String) (w : World) (q : String)
    (h : w.files q = none) : (cleanupTmps w ps).files q = none := by
  induction ps generalizing w with
  | nil => exact h
  | cons p rest ih =>
    simp only [ConfigSyncer.cleanupTmps]
    refine ih _ ?_
    by_cases hp : (w.files p).isSome
    · simp only [hp, if_true, World.removeFile]
      by_cases hq : q = p <;> simp [hq, h]
    · simpa [hp] using h

theorem cleanupTmps_files_mem (ps : List String) (w : World) (q : String)
    (hq : q ∈ ps) : (cleanupTmps w ps).files q = none := by
  induction ps generalizing w with
  | nil => cases hq
  | cons p rest ih =>
    rcases List.mem_cons.mp hq with h1 | h2
    · subst h1
      simp only [ConfigSyncer.cleanupTmps]
      refine cleanupTmps_files_none rest _ q ?_
      cases hv : w.files q with
      | some v => simp [hv, World.removeFile]
      | none => simp [hv]
    · simp only [ConfigSyncer.cleanupTmps]
      exact ih _ h2

/-! ### Frame lemmas for the merge engine and the staging loop -/

theorem sync_by_policy_files_ne (sy : ConfigSyncer) (w : World) (rel : List String)
    (force answer : Bool) (q : String) (hq : q ≠ tmpPathOf sy rel) :
    ((sy.sync_by_policy w rel force answer).2).files q = w.files q := by
  simp only [ConfigSyncer.sync_by_policy]
  repeat' split
  all_goals simp [World.writeFile, files_mkdirAll, hq]

theorem sync_by_policy_disk (sy : ConfigSyncer) (w : World) (rel : List String)
    (force answer : Bool) :
    ((sy.sync_by_policy w rel force answer).2).disk = w.disk := by
  simp only [ConfigSyncer.sync_by_policy]
  repeat' split
  all_goals simp [World.writeFile, disk_mkdirAll]

theorem stageAll_files_ne (sy : ConfigSyncer) (force : Bool) (answers : String → Bool)
    (rels : List (List String)) (w : World) (q : String)
    (hq : ∀ rel ∈ rels, q ≠ tmpPathOf sy rel) :
    ((sy.stageAll force answers w rels).2.2).files q = w.files q := by
  induction rels generalizing w with
  | nil => rfl
  | cons rel rest ih =>
    have h1 : ((sy.sync_by_policy w rel force (answers (joinSegs rel))).2).files q = w.files q :=
      sync_by_policy_files_ne sy w rel force _ q (hq rel (List.mem_cons_self rel rest))
    have hqr : ∀ r ∈ rest, q ≠ tmpPathOf sy r := fun r hr => hq r (List.mem_cons_of_mem rel hr)
    simp only [ConfigSyncer.stageAll]
    rcases h : sy.sync_by_policy w rel force (answers (joinSegs rel)) with ⟨ob, w1⟩
    rw [h] at h1
    cases ob with
    | none => simpa using h1
    | some b =>
      have h3 := ih w1 hqr
      have h1b : w1.files q = w.files q := h1
      show (sy.stageAll force answers w1 rest).2.2.files q = w.files q
      exact h3.trans h1b

theorem stageAll_disk (sy : ConfigSyncer) (force : Bool) (answers : String → Bool)
    (rels : List (List String)) (w : World) :
    ((sy.stageAll force answers w rels).2.2).disk = w.disk := by
  induction rels generalizing w with
  | nil => rfl
  | cons rel rest ih =>
    have h1 : ((sy.sync_by_policy w rel force (answers (joinSegs rel))).2).disk = w.disk :=
      sync_by_policy_disk sy w rel force _
    simp only [ConfigSyncer.stageAll]
    rcases h : sy.sync_by_policy w rel force (answers (joinSegs rel)) with ⟨ob, w1⟩
    rw [h] at h1
    cases ob with
    | none => simpa using h1
    | some b =>
      have h3 := ih w1
      have h1b : w1.disk = w.disk := h1
      show (sy.stageAll force answers w1 rest).2.2.disk = w.disk
      exact h3.trans h1b

theorem promoteAll_disk (sy : ConfigSyncer) (rels : List (List String)) (w : World) :
    ((sy.promoteAll w rels).2).disk = w.disk := by
  induction rels generalizing w with
  | nil => rfl
  | cons rel rest ih =>
    simp only [ConfigSyncer.promoteAll]
    split
    · exact ih w
    · split
      · rfl
      · simpa using ih _

/-! ### C7: APPEND merge content -/

/-- C7: for every existing target with content A and source with content B under
the APPEND policy (confirmation granted), the content written to the staging
file is exactly A ++ "\n\n" ++ B, and the merge reports success. -/
theorem C7_append_staged_content (sy : ConfigSyncer) (w : World) (rel : List String)
    (force answer : Bool) (A B : String)
    (hfa : force = true ∨ answer = true)
    (htgt : w.files (targetPathOf sy rel) = some A)
    (hsrc : w.files (sourcePathOf sy rel) = some B)
    (hpol : sy.resolvePolicy rel = Policy.APPEND)
    (hwf : sy.writeFails (tmpPathOf sy rel) = false) :
    (sy.sync_by_policy w rel force answer).1 = some true ∧
    ((sy.sync_by_policy w rel force answer).2).files (tmpPathOf sy rel) =
      some (A ++ "\n\n" ++ B) := by
  have hcond : (!force && !answer) = false := by
    rcases hfa with h | h <;> simp [h]
  simp only [ConfigSyncer.sync_by_policy, files_mkdirAll, hsrc, htgt, hpol, hwf, hcond]
  simp [World.writeFile]

def syW7 : ConfigSyncer :=
  ConfigSyncer.mk "home" "cfg" (fun s => s) Policy.APPEND [] EXCLUDE_PATTERNS (fun _ => false)

def wW7 : World :=
  World.mk (fun q => if q = "cfg/f" then some "B" else if q = "home/f" then some "A" else none)
    (fun _ => false) (fun _ => none)

/-- Witness for C7 at a concrete instance. -/
theorem C7_append_staged_content_witness :
    (wW7.files (targetPathOf syW7 ["f"]) = some "A" ∧
      syW7.resolvePolicy ["f"] = Policy.APPEND) ∧
    ((syW7.sync_by_policy wW7 ["f"] true true).2).files (tmpPathOf syW7 ["f"]) =
      some ("A" ++ "\n\n" ++ "B") :=
  ⟨⟨by decide, by decide⟩,
    (C7_append_staged_content syW7 wW7 ["f"] true true "A" "B" (Or.inl rfl) (by decide)
      (by decide) (by decide) (by decide)).2⟩

/-! ### C8: target-missing frame property -/

/-- C8: for a source with an existing state entry whose stored hash equals the
current content hash but whose target does not exist, the change detector
flags the file (excluded? = false) and rewrites its entry with only the
timestamp and reason changed: the hash field keeps the previously stored
value, and every other key of the store is untouched. -/
theorem C8_target_missing_frame (sy : ConfigSyncer) (fs : String → Option String)
    (st : SyncState) (ts : String) (rel : List String) (e : StateEntry) (c : String)
    (hpat : matchesExcludePattern sy.excludePatterns rel = false)
    (hsrc : fs (sourcePathOf sy rel) = some c)
    (hst : st (sourcePathOf sy rel) = some e)
    (hhash : e.hash = sy.md5 c)
    (htgt : fs (targetPathOf sy rel) = none) :
    sy.validate_exclude fs st ts rel =
      Except.ok (false, setState st (sourcePathOf sy rel)
        (StateEntry.mk e.hash ts reasonTargetMissing)) ∧
    (∀ q, q ≠ sourcePathOf sy rel →
      setState st (sourcePathOf sy rel) (StateEntry.mk e.hash ts reasonTargetMissing) q = st q) := by
  constructor
  · simp only [ConfigSyncer.validate_exclude, hpat, hsrc, hst, htgt, hhash]
    simp
  · intro q hq
    exact setState_ne st _ _ q hq

def syW8 : ConfigSyncer :=
  ConfigSyncer.mk "home" "cfg" (fun s => s) Policy.OVERWRITE [] EXCLUDE_PATTERNS (fun _ => false)

def fsW8 : String → Option String := fun q => if q = "cfg/f" then some "C" else none

def stW8 : SyncState := fun q =>
  if q = "cfg/f" then some (StateEntry.mk "C" "t0" "r0") else none

/-- Witness for C8 at a concrete instance. -/
theorem C8_target_missing_frame_witness :
    (stW8 (sourcePathOf syW8 ["f"]) = some (StateEntry.mk "C" "t0" "r0") ∧
      fsW8 (targetPathOf syW8 ["f"]) = none) ∧
    syW8.validate_exclude fsW8 stW8 "t1" ["f"] =
      Except.ok (false, setState stW8 (sourcePathOf syW8 ["f"])
        (StateEntry.mk (StateEntry.mk "C" "t0" "r0").hash "t1" reasonTargetMissing)) :=
  ⟨⟨by decide, by decide⟩,
    (C8_target_missing_frame syW8 fsW8 stW8 "t1" ["f"] (StateEntry.mk "C" "t0" "r0") "C"
      (by decide) (by decide) (by decide) (by decide) (by decide)).1⟩

/-! ### C10: parent directories are created even when the operator declines -/

/-- C10: when `_sync_by_policy` is invoked without force and the operator
declines, the result is the skipped (False) outcome, yet every directory of
the target's parent chain exists afterwards: the mkdir side effect precedes
the prompt. -/
theorem C10_mkdir_on_decline (sy : ConfigSyncer) (w : World) (rel : List String) (c : String)
    (hsrc : w.files (sourcePathOf sy rel) = some c) :
    (sy.sync_by_policy w rel false false).1 = some false ∧
    (∀ p ∈ targetParentChain sy rel, ((sy.sync_by_policy w rel false false).2).dirs p = true) := by
  have hmk : ∀ p ∈ targetParentChain sy rel,
      (mkdirAll w (targetParentChain sy rel)).dirs p = true :=
    fun p hp => dirs_mkdirAll_of_mem _ w p hp
  simp only [ConfigSyncer.sync_by_policy, files_mkdirAll, hsrc]
  cases htf : w.files (targetPathOf sy rel) with
  | some t => simpa using hmk
  | none => simpa using hmk

def syW10 : ConfigSyncer :=
  ConfigSyncer.mk "home" "cfg" (fun s => s) Policy.OVERWRITE [] EXCLUDE_PATTERNS (fun _ => false)

def wW10 : World :=
  World.mk (fun q => if q = "cfg/d/f" then some "C" else none) (fun _ => false) (fun _ => none)

/-- Witness for C10 at a concrete instance: the parent directory "home/d" did
not exist, the operator declines, yet it exists afterwards. -/
theorem C10_mkdir_on_decline_witness :
    (wW10.dirs "home/d" = false ∧ "home/d" ∈ targetParentChain syW10 ["d", "f"]) ∧
    (syW10.sync_by_policy wW10 ["d", "f"] false false).1 = some false ∧
    ((syW10.sync_by_policy wW10 ["d", "f"] false false).2).dirs "home/d" = true :=
  ⟨⟨by decide, by decide⟩,
    (C10_mkdir_on_decline syW10 wW10 ["d", "f"] "C" (by decide)).1,
    (C10_mkdir_on_decline syW10 wW10 ["d", "f"] "C" (by decide)).2 "home/d" (by decide)⟩

/-! ### C2: directory-pattern exclusion (leading component only) -/

/-- C2 (amended): a directory exclude pattern excludes a file exactly when the
excluded directory name is the LEADING component of the relative path (the
`parents` of the relative path are whole prefix paths, so a deeper occurrence
of the name never matches); such a file never becomes a sync candidate and the
state is untouched. -/
theorem C2_dir_exclusion_leading (sy : ConfigSyncer) (fs : String → Option String)
    (st : SyncState) (ts : String) (pat d : String) (rest : List String)
    (more : List (List String))
    (hmem : pat ∈ sy.excludePatterns)
    (hslash : endsWithSlash pat = true)
    (hd : dropLastChar pat = d)
    (hrest : rest ≠ []) :
    sy.validate_exclude fs st ts (d :: rest) = Except.ok (true, st) ∧
    sy.get_syncing_files fs st ts ((d :: rest) :: more) =
      sy.get_syncing_files fs st ts more := by
  have hmatch : matchesExcludePattern sy.excludePatterns (d :: rest) = true := by
    unfold matchesExcludePattern
    refine List.any_eq_true.mpr ⟨pat, hmem, ?_⟩
    rw [if_pos hslash]
    refine List.any_eq_true.mpr ⟨d, ?_, by simp [hd]⟩
    unfold parentChain
    refine List.mem_map.mpr ⟨1, ?_, ?_⟩
    · refine List.mem_range.mpr ?_
      have := List.length_pos.mpr hrest
      simp only [List.length_cons]
      omega
    · rfl
  have h1 : sy.validate_exclude fs st ts (d :: rest) = Except.ok (true, st) := by
    simp only [ConfigSyncer.validate_exclude, hmatch]
    rfl
  refine ⟨h1, ?_⟩
  simp only [ConfigSyncer.get_syncing_files, h1]

def syC2 : ConfigSyncer :=
  ConfigSyncer.mk "home" "cfg" (fun s => s) Policy.OVERWRITE [] EXCLUDE_PATTERNS (fun _ => false)

def fsC2 : String → Option String := fun q =>
  if q = "cfg/sub/.git/config" then some "secret" else none

def stC2 : SyncState := fun _ => none

/-- Counterexample to C2 as stated: the relative path sub/.git/config contains
the excluded directory name ".git" in a non-leading position, yet it is NOT
excluded — it appears in the sync candidate list and its state entry IS
created (mutated from `none`). -/
theorem C2_dir_exclusion_cex :
    ".git/" ∈ EXCLUDE_PATTERNS ∧
    matchesExcludePattern EXCLUDE_PATTERNS ["sub", ".git", "config"] = false ∧
    (syC2.get_syncing_files fsC2 stC2 "2026-10-12" [["sub", ".git", "config"]]).map
        (fun pr => pr.1) = some [["sub", ".git", "config"]] ∧
    (match syC2.validate_exclude fsC2 stC2 "2026-10-12" ["sub", ".git", "config"] with
      | Except.ok pr => pr.2 "cfg/sub/.git/config"
      | Except.error _ => none) =
      some (StateEntry.mk "secret" "2026-10-12" reasonNewFile) ∧
    stC2 "cfg/sub/.git/config" = none :=
  ⟨by decide, by decide, rfl, rfl, rfl⟩

def fsW2 : String → Option String := fun _ => none

def stW2 : SyncState := fun _ => none

/-- Witness for the amended C2 at a concrete instance. -/
theorem C2_dir_exclusion_leading_witness :
    (".git/" ∈ syC2.excludePatterns ∧ endsWithSlash ".git/" = true ∧
      dropLastChar ".git/" = ".git" ∧ (["config"] : List String) ≠ []) ∧
    syC2.validate_exclude fsW2 stW2 "t" [".git", "config"] = Except.ok (true, stW2) :=
  ⟨⟨by decide, by decide, by decide, by decide⟩,
    (C2_dir_exclusion_leading syC2 fsW2 stW2 "t" ".git/" ".git" ["config"] []
      (by decide) (by decide) (by decide) (by decide)).1⟩

/-! ### C4: expected-condition check on targets with fewer than two lines -/

def syC4 : ConfigSyncer :=
  ConfigSyncer.mk "home" "cfg" (fun s => s) Policy.OVERWRITE
    [(".bashrc", Policy.PREPEND_SOURCE_STATEMENT)] EXCLUDE_PATTERNS (fun _ => false)

def fsC4 : String → Option String := fun q =>
  if q = "cfg/.bashrc" then some "echo hi" else
  if q = "home/.bashrc" then some "hello\n" else none

def stC4 : SyncState := fun q =>
  if q = "cfg/.bashrc" then some (StateEntry.mk "echo hi" "t0" "r0") else none

/-- C4 (code bug): for a PREPEND_SOURCE_STATEMENT file whose existing target
has a single line, `_validate_expected_condition` evaluates `target_lines[1]`
and raises IndexError instead of reporting "needs sync"; the exception
propagates through `_validate_exclude` and crashes `get_syncing_files`. -/
theorem C4_expected_condition_indexerror :
    fsC4 (targetPathOf syC4 [".bashrc"]) = some "hello\n" ∧
    (readLines "hello\n").length < 2 ∧
    syC4.validate_expected_condition fsC4 [".bashrc"] =
      Except.error "IndexError: list index out of range" ∧
    syC4.validate_exclude fsC4 stC4 "t1" [".bashrc"] =
      Except.error "IndexError: list index out of range" ∧
    syC4.get_syncing_files fsC4 stC4 "t1" [[".bashrc"]] = none :=
  ⟨rfl, by decide, rfl, rfl, rfl⟩

/-! ### C1: batch abort atomicity -/

/-- C1: whenever the staging loop of `sync` is interrupted by an I/O error
(whatever candidate raised it), the batch aborts: the result is non-zero, no
target file has been modified, every staging file has been removed, and the
on-disk state store is unchanged. -/
theorem C1_batch_abort (sy : ConfigSyncer) (force : Bool) (answers : String → Bool)
    (w : World) (mem : SyncState) (rels : List (List String))
    (herr : (sy.stageAll force answers w rels).1 = true)
    (hdisj : ∀ rel1 ∈ rels, ∀ rel2 ∈ rels, targetPathOf sy rel1 ≠ tmpPathOf sy rel2) :
    (sy.sync force answers w mem rels).1 ≠ 0 ∧
    (∀ rel ∈ rels,
      ((sy.sync force answers w mem rels).2.1).files (targetPathOf sy rel) =
        w.files (targetPathOf sy rel)) ∧
    (∀ rel ∈ rels,
      ((sy.sync force answers w mem rels).2.1).files (tmpPathOf sy rel) = none) ∧
    ((sy.sync force answers w mem rels).2.1).disk = w.disk := by
  rcases hS : sy.stageAll force answers w rels with ⟨e, fl, w1⟩
  rw [hS] at herr
  have he : e = true := herr
  subst he
  have hsync : sy.sync force answers w mem rels =
      (1, cleanupTmps w1 (rels.map (fun rel => tmpPathOf sy rel)), mem) := by
    simp only [ConfigSyncer.sync, hS]
  rw [hsync]
  refine ⟨Nat.one_ne_zero, ?_, ?_, ?_⟩
  · intro rel hrel
    have hnotin : targetPathOf sy rel ∉ rels.map (fun r => tmpPathOf sy r) := by
      intro hmem2
      rcases List.mem_map.mp hmem2 with ⟨r2, hr2, heq⟩
      exact hdisj rel hrel r2 hr2 heq.symm
    have h1 := cleanupTmps_files_ne _ w1 _ hnotin
    have h2 : w1.files (targetPathOf sy rel) = w.files (targetPathOf sy rel) := by
      have h3 := stageAll_files_ne sy force answers rels w (targetPathOf sy rel)
        (fun r hr => hdisj rel hrel r hr)
      rw [hS] at h3
      exact h3
    exact h1.trans h2
  · intro rel hrel
    exact cleanupTmps_files_mem _ w1 _ (List.mem_map.mpr ⟨rel, hrel, rfl⟩)
  · have h1 := cleanupTmps_disk (rels.map (fun rel => tmpPathOf sy rel)) w1
    have h2 := stageAll_disk sy force answers rels w
    rw [hS] at h2
    exact h1.trans h2

def syW1 : ConfigSyncer :=
  ConfigSyncer.mk "home" "cfg" (fun s => s) Policy.OVERWRITE [] EXCLUDE_PATTERNS
    (fun p => p == "home/b.tmp_sync")

def wW1 : World :=
  World.mk
    (fun q => if q = "cfg/a" then some "AAA" else if q = "cfg/b" then some "BBB"
      else if q = "home/a" then some "old" else none)
    (fun _ => false)
    (fun q => if q = "cfg/a" then some (StateEntry.mk "h0" "t0" "r0") else none)

/-- Witness for C1 at a concrete instance: staging of the second candidate
fails with an I/O error; the sync aborts with a non-zero result and the
already-staged file of the first candidate has been cleaned up. -/
theorem C1_batch_abort_witness :
    (syW1.stageAll true (fun _ => true) wW1 [["a"], ["b"]]).1 = true ∧
    (syW1.sync true (fun _ => true) wW1 (fun _ => none) [["a"], ["b"]]).1 ≠ 0 ∧
    ((syW1.sync true (fun _ => true) wW1 (fun _ => none) [["a"], ["b"]]).2.1).files
      (tmpPathOf syW1 ["a"]) = none ∧
    ((syW1.sync true (fun _ => true) wW1 (fun _ => none) [["a"], ["b"]]).2.1).files
      (targetPathOf syW1 ["a"]) = wW1.files (targetPathOf syW1 ["a"]) :=
  ⟨by decide,
    (C1_batch_abort syW1 true (fun _ => true) wW1 (fun _ => none) [["a"], ["b"]]
      (by decide) (by decide)).1,
    (C1_batch_abort syW1 true (fun _ => true) wW1 (fun _ => none) [["a"], ["b"]]
      (by decide) (by decide)).2.2.1 ["a"] (by decide),
    (C1_batch_abort syW1 true (fun _ => true) wW1 (fun _ => none) [["a"], ["b"]]
      (by decide) (by decide)).2.1 ["a"] (by decide)⟩

/-! ### C5: declined files are excluded from the persisted state -/

theorem updatedStates_keys (sy : ConfigSyncer) (mem : SyncState)
    (flags : List (List String × Bool)) (upd : List (String × StateEntry))
    (hupd : sy.updatedStates mem flags = some upd) :
    ∀ k e2, (k, e2) ∈ upd →
      ∃ pair ∈ flags, pair.2 = true ∧ sourcePathOf sy pair.1 = k := by
  induction flags generalizing upd with
  | nil =>
    intro k e2 hk
    simp only [ConfigSyncer.updatedStates, Option.some.injEq] at hupd
    subst hupd
    cases hk
  | cons pair rest ih =>
    rcases pair with ⟨rel, b⟩
    intro k e2 hk
    cases b with
    | false =>
      have h2 : sy.updatedStates mem rest = some upd := hupd
      rcases ih upd h2 k e2 hk with ⟨p2, hp2, hb2, hk2⟩
      exact ⟨p2, List.mem_cons_of_mem _ hp2, hb2, hk2⟩
    | true =>
      simp only [ConfigSyncer.updatedStates, if_true] at hupd
      cases hm : mem (sourcePathOf sy rel) with
      | none => rw [hm] at hupd; cases hupd
      | some e =>
        rw [hm] at hupd
        rcases hrest : sy.updatedStates mem rest with _ | upd2
        · rw [hrest] at hupd; cases hupd
        · rw [hrest] at hupd
          have hupd2 : (sourcePathOf sy rel, e) :: upd2 = upd := by simpa using hupd
          subst hupd2
          rcases List.mem_cons.mp hk with h1 | h2
          · have hk1 : k = sourcePathOf sy rel := congrArg Prod.fst h1
            exact ⟨(rel, true), List.mem_cons_self _ _, rfl, hk1.symm⟩
          · rcases ih upd2 hrest k e2 h2 with ⟨p2, hp2, hb2, hk2⟩
            exact ⟨p2, List.mem_cons_of_mem _ hp2, hb2, hk2⟩

theorem applyUpdates_ne (upd : List (String × StateEntry)) (st : SyncState) (k : String)
    (hk : ∀ e2, (k, e2) ∉ upd) : applyUpdates st upd k = st k := by
  induction upd generalizing st with
  | nil => rfl
  | cons pair rest ih =>
    rcases pair with ⟨k2, e2⟩
    have hne : k ≠ k2 := by
      intro h
      exact hk e2 (h ▸ List.mem_cons_self _ _)
    have hrest : ∀ e3, (k, e3) ∉ rest := fun e3 h => hk e3 (List.mem_cons_of_mem _ h)
    simp only [ConfigSyncer.applyUpdates]
    rw [ih _ hrest]
    exact setState_ne st k2 e2 k hne

/-- C5: if the operator declined the prompt for candidate rel0 (its synced flag
is False) and the batch otherwise succeeds, the run returns success (0), rel0
is absent from the computed "updated" state set, the value persisted for rel0
is whatever was already in the on-disk store (the in-memory entry computed
during detection is NOT persisted), and the persisted store is exactly the
final in-memory store. -/
theorem C5_decline_excluded (sy : ConfigSyncer) (force : Bool) (answers : String → Bool)
    (w : World) (mem : SyncState) (rels : List (List String)) (rel0 : List String)
    (flags : List (List String × Bool)) (upd : List (String × StateEntry))
    (hstage : (sy.stageAll force answers w rels).1 = false)
    (hflags : (sy.stageAll force answers w rels).2.1 = flags)
    (hdecl : (rel0, false) ∈ flags)
    (hprom : (sy.promoteAll (sy.stageAll force answers w rels).2.2 rels).1 = false)
    (hupd : sy.updatedStates mem flags = some upd)
    (huniq : ∀ pair ∈ flags, pair.2 = true →
      sourcePathOf sy pair.1 ≠ sourcePathOf sy rel0) :
    (sy.sync force answers w mem rels).1 = 0 ∧
    (∀ e2, (sourcePathOf sy rel0, e2) ∉ upd) ∧
    (sy.sync force answers w mem rels).2.2 (sourcePathOf sy rel0) =
      w.disk (sourcePathOf sy rel0) ∧
    ((sy.sync force answers w mem rels).2.1).disk =
      (sy.sync force answers w mem rels).2.2 := by
  rcases hS : sy.stageAll force answers w rels with ⟨e, fl, w1⟩
  rw [hS] at hstage hflags hprom
  have he : e = false := hstage
  subst he
  have hfl : fl = flags := hflags
  subst hfl
  have hprom2 : (sy.promoteAll w1 rels).1 = false := hprom
  rcases hP : sy.promoteAll w1 rels with ⟨pe, w2⟩
  rw [hP] at hprom2
  have hpe : pe = false := hprom2
  subst hpe
  have hnotin : ∀ e2, (sourcePathOf sy rel0, e2) ∉ upd := by
    intro e2 hin
    rcases updatedStates_keys sy mem fl upd hupd _ e2 hin with ⟨p2, hp2, hb2, hk2⟩
    exact huniq p2 hp2 hb2 hk2
  have hdisk : w2.disk = w.disk := by
    have h1 := promoteAll_disk sy rels w1
    rw [hP] at h1
    have h2 := stageAll_disk sy force answers rels w
    rw [hS] at h2
    exact h1.trans h2
  have hsync : sy.sync force answers w mem rels =
      (0, cleanupTmps (w2.setDisk (applyUpdates w2.disk upd))
        (rels.map (fun rel => tmpPathOf sy rel)), applyUpdates w2.disk upd) := by
    simp only [ConfigSyncer.sync, hS, hP, hupd]
  rw [hsync]
  refine ⟨rfl, hnotin, ?_, ?_⟩
  · have h3 := applyUpdates_ne upd w2.disk (sourcePathOf sy rel0) hnotin
    show applyUpdates w2.disk upd (sourcePathOf sy rel0) = w.disk (sourcePathOf sy rel0)
    rw [h3, hdisk]
  · have h4 := cleanupTmps_disk (rels.map (fun rel => tmpPathOf sy rel))
      (w2.setDisk (applyUpdates w2.disk upd))
    simpa [World.setDisk] using h4

def syW5 : ConfigSyncer :=
  ConfigSyncer.mk "home" "cfg" (fun s => s) Policy.OVERWRITE [] EXCLUDE_PATTERNS (fun _ => false)

def wW5 : World :=
  World.mk
    (fun q => if q = "cfg/a" then some "AAA" else if q = "home/a" then some "old" else none)
    (fun _ => false)
    (fun q => if q = "cfg/a" then some (StateEntry.mk "hd" "td" "rd") else none)

def memW5 : SyncState := fun q =>
  if q = "cfg/a" then some (StateEntry.mk "AAA" "t1" "touched during detection") else none

/-- Witness for C5 at a concrete instance: the operator declines the only
candidate; the run still returns 0 and the on-disk entry is untouched even
though the in-memory entry had been modified during detection. -/
theorem C5_decline_excluded_witness :
    ((syW5.stageAll false (fun _ => false) wW5 [["a"]]).2.1 = [(["a"], false)] ∧
      memW5 (sourcePathOf syW5 ["a"]) ≠ wW5.disk (sourcePathOf syW5 ["a"])) ∧
    (syW5.sync false (fun _ => false) wW5 memW5 [["a"]]).1 = 0 ∧
    (syW5.sync false (fun _ => false) wW5 memW5 [["a"]]).2.2 (sourcePathOf syW5 ["a"]) =
      wW5.disk (sourcePathOf syW5 ["a"]) :=
  ⟨⟨by decide, by decide⟩,
    (C5_decline_excluded syW5 false (fun _ => false) wW5 memW5 [["a"]] ["a"]
      [(["a"], false)] [] (by decide) (by decide) (by decide) (by decide) (by decide)
      (by decide)).1,
    (C5_decline_excluded syW5 false (fun _ => false) wW5 memW5 [["a"]] ["a"]
      [(["a"], false)] [] (by decide) (by decide) (by decide) (by decide) (by decide)
      (by decide)).2.2.1⟩

/-! ### Characterizing a single-candidate sync run -/

theorem cleanupTmps_dirs (ps : List String) (w : World) :
    (cleanupTmps w ps).dirs = w.dirs := by
  induction ps generalizing w with
  | nil => rfl
  | cons p rest ih =>
    simp only [ConfigSyncer.cleanupTmps]
    rw [ih]
    by_cases h : (w.files p).isSome <;> simp [h, World.removeFile]

theorem sync_by_policy_create (sy : ConfigSyncer) (w : World) (rel : List String)
    (force answer : Bool) (c : String)
    (hsrc : w.files (sourcePathOf sy rel) = some c)
    (htgt : w.files (targetPathOf sy rel) = none)
    (hfa : force = true ∨ answer = true)
    (hwf : sy.writeFails (tmpPathOf sy rel) = false)
    (hpol : sy.resolvePolicy rel ≠ Policy.PREPEND_SOURCE_STATEMENT) :
    sy.sync_by_policy w rel force answer =
      (some true, (mkdirAll w (targetParentChain sy rel)).writeFile (tmpPathOf sy rel) c) := by
  have hcond : (!force && !answer) = false := by
    rcases hfa with h | h <;> simp [h]
  rcases hp : sy.resolvePolicy rel with _ | _ | _
  · simp [ConfigSyncer.sync_by_policy, files_mkdirAll, hsrc, htgt, hcond, hwf, hp]
  · simp [ConfigSyncer.sync_by_policy, files_mkdirAll, hsrc, htgt, hcond, hwf, hp]
  · exact absurd hp hpol

theorem sync_single_staged (sy : ConfigSyncer) (force : Bool) (answers : String → Bool)
    (w : World) (mem : SyncState) (rel : List String) (wA : World) (cT : String) (e : StateEntry)
    (hstage : sy.sync_by_policy w rel force (answers (joinSegs rel)) = (some true, wA))
    (htmp : wA.files (tmpPathOf sy rel) = some cT)
    (hwf : sy.writeFails (targetPathOf sy rel) = false)
    (hmem : mem (sourcePathOf sy rel) = some e) :
    (sy.sync force answers w mem [rel]).1 = 0 ∧
    (∀ q, ((sy.sync force answers w mem [rel]).2.1).files q =
      if q = tmpPathOf sy rel then none
      else if q = targetPathOf sy rel then some cT else wA.files q) ∧
    ((sy.sync force answers w mem [rel]).2.1).dirs = wA.dirs ∧
    ((sy.sync force answers w mem [rel]).2.1).disk =
      setState wA.disk (sourcePathOf sy rel) e ∧
    (sy.sync force answers w mem [rel]).2.2 = setState wA.disk (sourcePathOf sy rel) e := by
  have hSA : sy.stageAll force answers w [rel] = (false, [(rel, true)], wA) := by
    simp only [ConfigSyncer.stageAll, hstage]
  have hPA : sy.promoteAll wA [rel] =
      (false, World.mk
        (fun q => if q = tmpPathOf sy rel then none
          else if q = targetPathOf sy rel then some cT else wA.files q)
        wA.dirs wA.disk) := by
    simp only [ConfigSyncer.promoteAll, htmp, hwf]
    simp
  have hUS : sy.updatedStates mem [(rel, true)] = some [(sourcePathOf sy rel, e)] := by
    simp only [ConfigSyncer.updatedStates, hmem, if_true]
    rfl
  have hsync : sy.sync force answers w mem [rel] =
      (0, cleanupTmps
        ((World.mk
          (fun q => if q = tmpPathOf sy rel then none
            else if q = targetPathOf sy rel then some cT else wA.files q)
          wA.dirs wA.disk).setDisk (setState wA.disk (sourcePathOf sy rel) e))
        [tmpPathOf sy rel],
        setState wA.disk (sourcePathOf sy rel) e) := by
    simp only [ConfigSyncer.sync, hSA, hPA, hUS, List.map]
    rfl
  rw [hsync]
  refine ⟨rfl, ?_, ?_, ?_, rfl⟩
  · intro q
    by_cases hq : q = tmpPathOf sy rel
    · subst hq
      rw [cleanupTmps_files_mem _ _ _ (List.mem_singleton.mpr rfl)]
      simp
    · rw [cleanupTmps_files_ne _ _ _ (by simpa using hq)]
      simp [World.setDisk, hq]
  · rw [cleanupTmps_dirs]
    rfl
  · rw [cleanupTmps_disk]
    rfl

theorem sync_single_noop (sy : ConfigSyncer) (force : Bool) (answers : String → Bool)
    (w : World) (mem : SyncState) (rel : List String) (wA : World) (e : StateEntry)
    (hstage : sy.sync_by_policy w rel force (answers (joinSegs rel)) = (some true, wA))
    (htmp : wA.files (tmpPathOf sy rel) = none)
    (hmem : mem (sourcePathOf sy rel) = some e) :
    (sy.sync force answers w mem [rel]).1 = 0 ∧
    (∀ q, ((sy.sync force answers w mem [rel]).2.1).files q = wA.files q) ∧
    ((sy.sync force answers w mem [rel]).2.1).dirs = wA.dirs ∧
    ((sy.sync force answers w mem [rel]).2.1).disk =
      setState wA.disk (sourcePathOf sy rel) e ∧
    (sy.sync force answers w mem [rel]).2.2 = setState wA.disk (sourcePathOf sy rel) e := by
  have hSA : sy.stageAll force answers w [rel] = (false, [(rel, true)], wA) := by
    simp only [ConfigSyncer.stageAll, hstage]
  have hPA : sy.promoteAll wA [rel] = (false, wA) := by
    simp only [ConfigSyncer.promoteAll, htmp]
  have hUS : sy.updatedStates mem [(rel, true)] = some [(sourcePathOf sy rel, e)] := by
    simp only [ConfigSyncer.updatedStates, hmem, if_true]
    rfl
  have hsync : sy.sync force answers w mem [rel] =
      (0, cleanupTmps (wA.setDisk (setState wA.disk (sourcePathOf sy rel) e))
        [tmpPathOf sy rel],
        setState wA.disk (sourcePathOf sy rel) e) := by
    simp only [ConfigSyncer.sync, hSA, hPA, hUS, List.map]
    rfl
  rw [hsync]
  have hcfiles : ∀ q,
      (cleanupTmps (wA.setDisk (setState wA.disk (sourcePathOf sy rel) e))
        [tmpPathOf sy rel]).files q = wA.files q := by
    intro q
    by_cases hq : q = tmpPathOf sy rel
    · subst hq
      rw [cleanupTmps_files_mem _ _ _ (List.mem_singleton.mpr rfl)]
      exact htmp.symm
    · rw [cleanupTmps_files_ne _ _ _ (by simpa using hq)]
      rfl
  refine ⟨rfl, hcfiles, ?_, ?_, rfl⟩
  · rw [cleanupTmps_dirs]
    rfl
  · rw [cleanupTmps_disk]
    rfl

/-! ### C6: OVERWRITE round-trip on a brand-new file -/

/-- C6: a brand-new source (no state entry, no target) synced under OVERWRITE:
detection flags it, the sync returns 0, the promoted target is byte-identical
to the source, and an immediately following change-detector evaluation reports
it up to date (excluded? = true) with the state untouched. -/
theorem C6_overwrite_roundtrip (sy : ConfigSyncer) (answers : String → Bool)
    (w : World) (mem : SyncState) (ts ts2 : String) (rel : List String) (c : String)
    (hpat : matchesExcludePattern sy.excludePatterns rel = false)
    (hsrc : w.files (sourcePathOf sy rel) = some c)
    (hmem : mem (sourcePathOf sy rel) = none)
    (htgt : w.files (targetPathOf sy rel) = none)
    (hpol : sy.resolvePolicy rel = Policy.OVERWRITE)
    (hwf1 : sy.writeFails (tmpPathOf sy rel) = false)
    (hwf2 : sy.writeFails (targetPathOf sy rel) = false)
    (hne1 : sourcePathOf sy rel ≠ targetPathOf sy rel)
    (hne2 : sourcePathOf sy rel ≠ tmpPathOf sy rel) :
    ∃ m1, sy.validate_exclude w.files mem ts rel = Except.ok (false, m1) ∧
      (sy.sync true answers w m1 [rel]).1 = 0 ∧
      ((sy.sync true answers w m1 [rel]).2.1).files (targetPathOf sy rel) = some c ∧
      sy.validate_exclude ((sy.sync true answers w m1 [rel]).2.1).files
          (sy.sync true answers w m1 [rel]).2.2 ts2 rel =
        Except.ok (true, (sy.sync true answers w m1 [rel]).2.2) := by
  have hdet : sy.validate_exclude w.files mem ts rel =
      Except.ok (false, setState mem (sourcePathOf sy rel)
        (StateEntry.mk (sy.md5 c) ts reasonNewFile)) := by
    simp [ConfigSyncer.validate_exclude, hpat, hsrc, hmem]
  have hpolne : sy.resolvePolicy rel ≠ Policy.PREPEND_SOURCE_STATEMENT := by
    rw [hpol]
    intro h
    cases h
  have hstage := sync_by_policy_create sy w rel true (answers (joinSegs rel)) c hsrc htgt
    (Or.inl rfl) hwf1 hpolne
  have htmpA : ((mkdirAll w (targetParentChain sy rel)).writeFile (tmpPathOf sy rel) c).files
      (tmpPathOf sy rel) = some c := by
    simp [World.writeFile]
  have hmemA : setState mem (sourcePathOf sy rel) (StateEntry.mk (sy.md5 c) ts reasonNewFile)
      (sourcePathOf sy rel) = some (StateEntry.mk (sy.md5 c) ts reasonNewFile) :=
    setState_self _ _ _
  have hrun := sync_single_staged sy true answers w
    (setState mem (sourcePathOf sy rel) (StateEntry.mk (sy.md5 c) ts reasonNewFile)) rel
    ((mkdirAll w (targetParentChain sy rel)).writeFile (tmpPathOf sy rel) c) c
    (StateEntry.mk (sy.md5 c) ts reasonNewFile) hstage htmpA hwf2 hmemA
  obtain ⟨hr0, hrfiles, hrdirs, hrdisk, hrmem⟩ := hrun
  have hftgt : ((sy.sync true answers w
      (setState mem (sourcePathOf sy rel) (StateEntry.mk (sy.md5 c) ts reasonNewFile))
      [rel]).2.1).files (targetPathOf sy rel) = some c := by
    rw [hrfiles (targetPathOf sy rel), if_neg (target_ne_tmp sy rel), if_pos rfl]
  have hfsrc : ((sy.sync true answers w
      (setState mem (sourcePathOf sy rel) (StateEntry.mk (sy.md5 c) ts reasonNewFile))
      [rel]).2.1).files (sourcePathOf sy rel) = some c := by
    rw [hrfiles (sourcePathOf sy rel), if_neg hne2, if_neg hne1]
    simp [World.writeFile, hne2, files_mkdirAll, hsrc]
  have hst2 : (sy.sync true answers w
      (setState mem (sourcePathOf sy rel) (StateEntry.mk (sy.md5 c) ts reasonNewFile))
      [rel]).2.2 (sourcePathOf sy rel) = some (StateEntry.mk (sy.md5 c) ts reasonNewFile) := by
    rw [hrmem]
    exact setState_self _ _ _
  refine ⟨_, hdet, hr0, hftgt, ?_⟩
  simp only [ConfigSyncer.validate_exclude, hpat, hfsrc, hst2,
    ConfigSyncer.validate_expected_condition, hpol, hftgt]
  simp

def syW6 : ConfigSyncer :=
  ConfigSyncer.mk "home" "cfg" (fun s => s) Policy.OVERWRITE [] EXCLUDE_PATTERNS (fun _ => false)

def wW6 : World :=
  World.mk (fun q => if q = "cfg/a" then some "AAA" else none) (fun _ => false) (fun _ => none)

def memW6 : SyncState := fun _ => none

/-- Witness for C6 at a concrete instance. -/
theorem C6_overwrite_roundtrip_witness :
    (wW6.files (sourcePathOf syW6 ["a"]) = some "AAA" ∧
      memW6 (sourcePathOf syW6 ["a"]) = none ∧
      wW6.files (targetPathOf syW6 ["a"]) = none) ∧
    (∃ m1, syW6.validate_exclude wW6.files memW6 "t1" ["a"] = Except.ok (false, m1) ∧
      (syW6.sync true (fun _ => true) wW6 m1 [["a"]]).1 = 0 ∧
      ((syW6.sync true (fun _ => true) wW6 m1 [["a"]]).2.1).files (targetPathOf syW6 ["a"]) =
        some "AAA" ∧
      syW6.validate_exclude ((syW6.sync true (fun _ => true) wW6 m1 [["a"]]).2.1).files
          (syW6.sync true (fun _ => true) wW6 m1 [["a"]]).2.2 "t2" ["a"] =
        Except.ok (true, (syW6.sync true (fun _ => true) wW6 m1 [["a"]]).2.2)) :=
  ⟨⟨by decide, rfl, by decide⟩,
    C6_overwrite_roundtrip syW6 (fun _ => true) wW6 memW6 "t1" "t2" ["a"] "AAA"
      (by decide) (by decide) rfl (by decide) (by decide) (by decide) (by decide)
      (by decide) (by decide)⟩

/-! ### C9: PREPEND no-op counts as synced without writing a staging file -/

theorem sync_by_policy_prepend_noop (sy : ConfigSyncer) (w : World) (rel : List String)
    (force answer : Bool) (s0 c : String)
    (hpol : sy.resolvePolicy rel = Policy.PREPEND_SOURCE_STATEMENT)
    (hsrc : w.files (sourcePathOf sy rel) = some s0)
    (htgt : w.files (targetPathOf sy rel) = some c)
    (hfa : force = true ∨ answer = true)
    (hline : (readLines c).get? 1 = some (directiveLine (sourcePathOf sy rel))) :
    sy.sync_by_policy w rel force answer =
      (some true, mkdirAll w (targetParentChain sy rel)) := by
  have hcond : (!force && !answer) = false := by
    rcases hfa with h | h <;> simp [h]
  have hlen : ¬ (readLines c).length < 2 := by
    rcases List.get?_eq_some.mp hline with ⟨h1, _⟩
    omega
  have hline2 : (readLines c)[1]? = some (directiveLine (sourcePathOf sy rel)) := by
    rw [← List.get?_eq_getElem?]
    exact hline
  simp [ConfigSyncer.sync_by_policy, files_mkdirAll, hsrc, htgt, hcond, hpol, hline, hline2,
    hlen]

/-- C9: when the existing target's second line already equals the directive
under PREPEND_SOURCE_STATEMENT (confirmation granted), the merge reports True
without writing anything; in a batch the file counts as synced: the run
returns 0, no file content changes, and the in-memory entry is persisted to
the on-disk store. -/
theorem C9_prepend_noop_success (sy : ConfigSyncer) (answers : String → Bool)
    (w : World) (mem : SyncState) (rel : List String) (s0 c : String) (e : StateEntry)
    (hpol : sy.resolvePolicy rel = Policy.PREPEND_SOURCE_STATEMENT)
    (hsrc : w.files (sourcePathOf sy rel) = some s0)
    (htgt : w.files (targetPathOf sy rel) = some c)
    (hline : (readLines c).get? 1 = some (directiveLine (sourcePathOf sy rel)))
    (htmp0 : w.files (tmpPathOf sy rel) = none)
    (hmem : mem (sourcePathOf sy rel) = some e) :
    (sy.sync_by_policy w rel true (answers (joinSegs rel))).1 = some true ∧
    (∀ q, ((sy.sync_by_policy w rel true (answers (joinSegs rel))).2).files q = w.files q) ∧
    (sy.sync true answers w mem [rel]).1 = 0 ∧
    (∀ q, ((sy.sync true answers w mem [rel]).2.1).files q = w.files q) ∧
    (sy.sync true answers w mem [rel]).2.2 (sourcePathOf sy rel) = some e ∧
    ((sy.sync true answers w mem [rel]).2.1).disk (sourcePathOf sy rel) = some e := by
  have hstage := sync_by_policy_prepend_noop sy w rel true (answers (joinSegs rel)) s0 c
    hpol hsrc htgt (Or.inl rfl) hline
  have htmpA : (mkdirAll w (targetParentChain sy rel)).files (tmpPathOf sy rel) = none := by
    rw [files_mkdirAll]
    exact htmp0
  have hrun := sync_single_noop sy true answers w mem rel
    (mkdirAll w (targetParentChain sy rel)) e hstage htmpA hmem
  obtain ⟨hr0, hrfiles, hrdirs, hrdisk, hrmem⟩ := hrun
  refine ⟨by rw [hstage], ?_, hr0, ?_, ?_, ?_⟩
  · intro q
    rw [hstage]
    show (mkdirAll w (targetParentChain sy rel)).files q = w.files q
    rw [files_mkdirAll]
  · intro q
    rw [hrfiles q, files_mkdirAll]
  · rw [hrmem]
    exact setState_self _ _ _
  · rw [hrdisk]
    exact setState_self _ _ _

def syW9 : ConfigSyncer :=
  ConfigSyncer.mk "home" "cfg" (fun s => s) Policy.OVERWRITE
    [(".bashrc", Policy.PREPEND_SOURCE_STATEMENT)] EXCLUDE_PATTERNS (fun _ => false)

def wW9 : World :=
  World.mk
    (fun q => if q = "cfg/.bashrc" then some "echo hi" else
      if q = "home/.bashrc" then
        some "# Source personal configs\nsource \"cfg/.bashrc\"\n\nalias x=y\n" else none)
    (fun _ => false) (fun _ => none)

def memW9 : SyncState := fun q =>
  if q = "cfg/.bashrc" then some (StateEntry.mk "echo hi" "t1" "r1") else none

/-- Witness for C9 at a concrete instance. -/
theorem C9_prepend_noop_success_witness :
    ((readLines "# Source personal configs\nsource \"cfg/.bashrc\"\n\nalias x=y\n").get? 1 =
      some (directiveLine (sourcePathOf syW9 [".bashrc"])) ∧
      syW9.resolvePolicy [".bashrc"] = Policy.PREPEND_SOURCE_STATEMENT) ∧
    (syW9.sync true (fun _ => true) wW9 memW9 [[".bashrc"]]).1 = 0 ∧
    (∀ q, ((syW9.sync true (fun _ => true) wW9 memW9 [[".bashrc"]]).2.1).files q = wW9.files q) ∧
    ((syW9.sync true (fun _ => true) wW9 memW9 [[".bashrc"]]).2.1).disk
      (sourcePathOf syW9 [".bashrc"]) = some (StateEntry.mk "echo hi" "t1" "r1") :=
  ⟨⟨by decide, by decide⟩,
    (C9_prepend_noop_success syW9 (fun _ => true) wW9 memW9 [".bashrc"] "echo hi"
      "# Source personal configs\nsource \"cfg/.bashrc\"\n\nalias x=y\n"
      (StateEntry.mk "echo hi" "t1" "r1") (by decide) (by decide) (by decide) (by decide)
      (by decide) (by decide)).2.2.1,
    (C9_prepend_noop_success syW9 (fun _ => true) wW9 memW9 [".bashrc"] "echo hi"
      "# Source personal configs\nsource \"cfg/.bashrc\"\n\nalias x=y\n"
      (StateEntry.mk "echo hi" "t1" "r1") (by decide) (by decide) (by decide) (by decide)
      (by decide) (by decide)).2.2.2.1,
    (C9_prepend_noop_success syW9 (fun _ => true) wW9 memW9 [".bashrc"] "echo hi"
      "# Source personal configs\nsource \"cfg/.bashrc\"\n\nalias x=y\n"
      (StateEntry.mk "echo hi" "t1" "r1") (by decide) (by decide) (by decide) (by decide)
      (by decide) (by decide)).2.2.2.2.2⟩

/-! ### C3: PREPEND_SOURCE_STATEMENT idempotence -/

theorem splitLinesAux_append (l1 l2 : List Char) (acc : List Char) (h : '\n' ∉ l1) :
    splitLinesAux acc (l1 ++ '\n' :: l2) =
      String.mk (acc ++ l1 ++ ['\n']) :: splitLinesAux [] l2 := by
  induction l1 generalizing acc with
  | nil => simp [splitLinesAux]
  | cons a rest ih =>
    have ha : a ≠ '\n' := fun hh => h (hh ▸ List.mem_cons_self a rest)
    have hrest : '\n' ∉ rest := fun hh => h (List.mem_cons_of_mem a hh)
    have hstep : splitLinesAux acc (a :: (rest ++ '\n' :: l2)) =
        splitLinesAux (acc ++ [a]) (rest ++ '\n' :: l2) := by
      rw [splitLinesAux, if_neg ha]
    calc splitLinesAux acc ((a :: rest) ++ '\n' :: l2)
        = splitLinesAux (acc ++ [a]) (rest ++ '\n' :: l2) := hstep
      _ = String.mk ((acc ++ [a]) ++ rest ++ ['\n']) :: splitLinesAux [] l2 := ih _ hrest
      _ = String.mk (acc ++ (a :: rest) ++ ['\n']) :: splitLinesAux [] l2 := by simp

theorem string_mk_eq (l : List Char) (s : String) (h : s.data = l) : String.mk l = s := by
  cases s
  exact congrArg String.mk h.symm

/-- After a PREPEND merge writes `sourceStatement p ++ "\n\n" ++ originText`,
the second line of the result is exactly the expected directive line (provided
the source path contains no newline). -/
theorem readLines_prepended_get1 (p c : String) (hnl : '\n' ∉ p.data) :
    (readLines (sourceStatement p ++ "\n\n" ++ c)).get? 1 = some (directiveLine p) := by
  have hlit : ("# Source personal configs\nsource \"" : String).data =
      ("# Source personal configs" : String).data ++ '\n' :: ("source \"" : String).data := by
    decide
  have hdata : (sourceStatement p ++ "\n\n" ++ c).data =
      ("# Source personal configs" : String).data ++
        '\n' :: (("source \"" : String).data ++ (p.data ++ ("\"" : String).data) ++
          '\n' :: ('\n' :: c.data)) := by
    simp only [sourceStatement, String.data_append, hlit]
    have h2 : ("\n\n" : String).data = ['\n', '\n'] := by decide
    simp [h2, List.append_assoc]
  unfold readLines
  rw [hdata]
  rw [splitLinesAux_append _ _ [] (by decide)]
  have hnot2 : '\n' ∉ ("source \"" : String).data ++ (p.data ++ ("\"" : String).data) := by
    intro hmem2
    rcases List.mem_append.mp hmem2 with h1 | h2
    · revert h1
      decide
    · rcases List.mem_append.mp h2 with h3 | h4
      · exact hnl h3
      · revert h4
        decide
  rw [show ("source \"" : String).data ++ (p.data ++ ("\"" : String).data) ++
      '\n' :: ('\n' :: c.data) =
      (("source \"" : String).data ++ (p.data ++ ("\"" : String).data)) ++
      '\n' :: ('\n' :: c.data) from rfl]
  rw [splitLinesAux_append _ _ [] hnot2]
  simp only [List.get?]
  refine congrArg some ?_
  refine string_mk_eq _ _ ?_
  simp [directiveLine, String.data_append]

theorem sync_by_policy_prepend_write (sy : ConfigSyncer) (w : World) (rel : List String)
    (force answer : Bool) (s0 c : String)
    (hpol : sy.resolvePolicy rel = Policy.PREPEND_SOURCE_STATEMENT)
    (hsrc : w.files (sourcePathOf sy rel) = some s0)
    (htgt : w.files (targetPathOf sy rel) = some c)
    (hfa : force = true ∨ answer = true)
    (hwf : sy.writeFails (tmpPathOf sy rel) = false)
    (hcond : (readLines c).length < 2 ∨
      ¬ (readLines c).get? 1 = some (directiveLine (sourcePathOf sy rel))) :
    sy.sync_by_policy w rel force answer =
      (some true, (mkdirAll w (targetParentChain sy rel)).writeFile (tmpPathOf sy rel)
        (sourceStatement (sourcePathOf sy rel) ++ "\n\n" ++ c)) := by
  have hcond2 : (!force && !answer) = false := by
    rcases hfa with h | h <;> simp [h]
  rcases hcond with h | h
  · simp [ConfigSyncer.sync_by_policy, files_mkdirAll, hsrc, htgt, hcond2, hpol, hwf, h]
  · have h2 : ¬ (readLines c)[1]? = some (directiveLine (sourcePathOf sy rel)) := by
      rw [← List.get?_eq_getElem?]
      exact h
    simp [ConfigSyncer.sync_by_policy, files_mkdirAll, hsrc, htgt, hcond2, hpol, hwf, h, h2]

/-- C3 (amended): for every EXISTING target, applying the
PREPEND_SOURCE_STATEMENT merge (one full single-file sync) and then applying
it again is idempotent: the second run succeeds, its merge step detects the
directive on the target's second line, writes nothing, and the target content
after the second run equals the content after the first.  (In the
target-does-not-exist creation case idempotence FAILS — see the
counterexample — because the created file's directive line lacks a trailing
newline.) -/
theorem C3_prepend_idempotent_existing (sy : ConfigSyncer) (answers : String → Bool)
    (w : World) (mem : SyncState) (rel : List String) (s0 c : String) (e : StateEntry)
    (hpol : sy.resolvePolicy rel = Policy.PREPEND_SOURCE_STATEMENT)
    (hsrc : w.files (sourcePathOf sy rel) = some s0)
    (htgt : w.files (targetPathOf sy rel) = some c)
    (htmp0 : w.files (tmpPathOf sy rel) = none)
    (hmem : mem (sourcePathOf sy rel) = some e)
    (hwf1 : sy.writeFails (tmpPathOf sy rel) = false)
    (hwf2 : sy.writeFails (targetPathOf sy rel) = false)
    (hne1 : sourcePathOf sy rel ≠ targetPathOf sy rel)
    (hne2 : sourcePathOf sy rel ≠ tmpPathOf sy rel)
    (hnl : '\n' ∉ (sourcePathOf sy rel).data) :
    (sy.sync true answers w mem [rel]).1 = 0 ∧
    (sy.sync true answers (sy.sync true answers w mem [rel]).2.1
      (sy.sync true answers w mem [rel]).2.2 [rel]).1 = 0 ∧
    (sy.sync_by_policy (sy.sync true answers w mem [rel]).2.1 rel true
      (answers (joinSegs rel))).1 = some true ∧
    (∀ q, ((sy.sync_by_policy (sy.sync true answers w mem [rel]).2.1 rel true
      (answers (joinSegs rel))).2).files q =
        ((sy.sync true answers w mem [rel]).2.1).files q) ∧
    (sy.sync true answers (sy.sync true answers w mem [rel]).2.1
      (sy.sync true answers w mem [rel]).2.2 [rel]).2.1.files (targetPathOf sy rel) =
      ((sy.sync true answers w mem [rel]).2.1).files (targetPathOf sy rel) := by
  by_cases hc : (readLines c).length < 2 ∨
      ¬ (readLines c).get? 1 = some (directiveLine (sourcePathOf sy rel))
  · -- first application stages the prepended content
    have hstage := sync_by_policy_prepend_write sy w rel true (answers (joinSegs rel)) s0 c
      hpol hsrc htgt (Or.inl rfl) hwf1 hc
    have htmpA : ((mkdirAll w (targetParentChain sy rel)).writeFile (tmpPathOf sy rel)
        (sourceStatement (sourcePathOf sy rel) ++ "\n\n" ++ c)).files (tmpPathOf sy rel) =
        some (sourceStatement (sourcePathOf sy rel) ++ "\n\n" ++ c) := by
      simp [World.writeFile]
    have hrun1 := sync_single_staged sy true answers w mem rel
      ((mkdirAll w (targetParentChain sy rel)).writeFile (tmpPathOf sy rel)
        (sourceStatement (sourcePathOf sy rel) ++ "\n\n" ++ c))
      (sourceStatement (sourcePathOf sy rel) ++ "\n\n" ++ c) e hstage htmpA hwf2 hmem
    obtain ⟨h10, h1files, h1dirs, h1disk, h1mem⟩ := hrun1
    have f1tgt : ((sy.sync true answers w mem [rel]).2.1).files (targetPathOf sy rel) =
        some (sourceStatement (sourcePathOf sy rel) ++ "\n\n" ++ c) := by
      rw [h1files (targetPathOf sy rel), if_neg (target_ne_tmp sy rel), if_pos rfl]
    have f1src : ((sy.sync true answers w mem [rel]).2.1).files (sourcePathOf sy rel) =
        some s0 := by
      rw [h1files (sourcePathOf sy rel), if_neg hne2, if_neg hne1]
      simp [World.writeFile, hne2, files_mkdirAll, hsrc]
    have f1tmp : ((sy.sync true answers w mem [rel]).2.1).files (tmpPathOf sy rel) = none := by
      rw [h1files (tmpPathOf sy rel), if_pos rfl]
    have m1src : (sy.sync true answers w mem [rel]).2.2 (sourcePathOf sy rel) = some e := by
      rw [h1mem]
      exact setState_self _ _ _
    have hline2 := readLines_prepended_get1 (sourcePathOf sy rel) c hnl
    have hstage2 := sync_by_policy_prepend_noop sy (sy.sync true answers w mem [rel]).2.1 rel
      true (answers (joinSegs rel)) s0
      (sourceStatement (sourcePathOf sy rel) ++ "\n\n" ++ c) hpol f1src f1tgt (Or.inl rfl) hline2
    have htmpA2 : (mkdirAll (sy.sync true answers w mem [rel]).2.1
        (targetParentChain sy rel)).files (tmpPathOf sy rel) = none := by
      rw [files_mkdirAll]
      exact f1tmp
    have hrun2 := sync_single_noop sy true answers (sy.sync true answers w mem [rel]).2.1
      (sy.sync true answers w mem [rel]).2.2 rel
      (mkdirAll (sy.sync true answers w mem [rel]).2.1 (targetParentChain sy rel)) e
      hstage2 htmpA2 m1src
    obtain ⟨h20, h2files, h2dirs, h2disk, h2mem⟩ := hrun2
    refine ⟨h10, h20, by rw [hstage2], ?_, ?_⟩
    · intro q
      rw [hstage2]
      show (mkdirAll (sy.sync true answers w mem [rel]).2.1
        (targetParentChain sy rel)).files q = _
      rw [files_mkdirAll]
    · rw [h2files (targetPathOf sy rel), files_mkdirAll]
  · -- first application is already a no-op
    push_neg at hc
    obtain ⟨hlen, hline1⟩ := hc
    have hstage1 := sync_by_policy_prepend_noop sy w rel true (answers (joinSegs rel)) s0 c
      hpol hsrc htgt (Or.inl rfl) hline1
    have htmpA1 : (mkdirAll w (targetParentChain sy rel)).files (tmpPathOf sy rel) = none := by
      rw [files_mkdirAll]
      exact htmp0
    have hrun1 := sync_single_noop sy true answers w mem rel
      (mkdirAll w (targetParentChain sy rel)) e hstage1 htmpA1 hmem
    obtain ⟨h10, h1files, h1dirs, h1disk, h1mem⟩ := hrun1
    have f1tgt : ((sy.sync true answers w mem [rel]).2.1).files (targetPathOf sy rel) =
        some c := by
      rw [h1files (targetPathOf sy rel), files_mkdirAll]
      exact htgt
    have f1src : ((sy.sync true answers w mem [rel]).2.1).files (sourcePathOf sy rel) =
        some s0 := by
      rw [h1files (sourcePathOf sy rel), files_mkdirAll]
      exact hsrc
    have f1tmp : ((sy.sync true answers w mem [rel]).2.1).files (tmpPathOf sy rel) = none := by
      rw [h1files (tmpPathOf sy rel), files_mkdirAll]
      exact htmp0
    have m1src : (sy.sync true answers w mem [rel]).2.2 (sourcePathOf sy rel) = some e := by
      rw [h1mem]
      exact setState_self _ _ _
    have hstage2 := sync_by_policy_prepend_noop sy (sy.sync true answers w mem [rel]).2.1 rel
      true (answers (joinSegs rel)) s0 c hpol f1src f1tgt (Or.inl rfl) hline1
    have htmpA2 : (mkdirAll (sy.sync true answers w mem [rel]).2.1
        (targetParentChain sy rel)).files (tmpPathOf sy rel) = none := by
      rw [files_mkdirAll]
      exact f1tmp
    have hrun2 := sync_single_noop sy true answers (sy.sync true answers w mem [rel]).2.1
      (sy.sync true answers w mem [rel]).2.2 rel
      (mkdirAll (sy.sync true answers w mem [rel]).2.1 (targetParentChain sy rel)) e
      hstage2 htmpA2 m1src
    obtain ⟨h20, h2files, h2dirs, h2disk, h2mem⟩ := hrun2
    refine ⟨h10, h20, by rw [hstage2], ?_, ?_⟩
    · intro q
      rw [hstage2]
      show (mkdirAll (sy.sync true answers w mem [rel]).2.1
        (targetParentChain sy rel)).files q = _
      rw [files_mkdirAll]
    · rw [h2files (targetPathOf sy rel), files_mkdirAll]

def syC3 : ConfigSyncer :=
  ConfigSyncer.mk "home" "cfg" (fun s => s) Policy.OVERWRITE
    [(".bashrc", Policy.PREPEND_SOURCE_STATEMENT)] EXCLUDE_PATTERNS (fun _ => false)

def wC3 : World :=
  World.mk (fun q => if q = "cfg/.bashrc" then some "echo hi" else none)
    (fun _ => false) (fun _ => none)

def memC3 : SyncState := fun q =>
  if q = "cfg/.bashrc" then some (StateEntry.mk "echo hi" "t1" "r1") else none

/-- Counterexample to C3 as stated: in the target-does-not-exist creation case
the merge is NOT idempotent.  The first sync creates the target containing
only the two-line header (no trailing newline), so on the second sync the
directive check fails (`origin_lines[1]` is `source "..."` without the
newline, while the expected statement has one) and the header is prepended
again: the content after two applications differs from the content after
one. -/
theorem C3_prepend_idempotent_cex :
    wC3.files (targetPathOf syC3 [".bashrc"]) = none ∧
    ((syC3.sync true (fun _ => true) wC3 memC3 [[".bashrc"]]).2.1).files "home/.bashrc" =
      some "# Source personal configs\nsource \"cfg/.bashrc\"" ∧
    ((syC3.sync true (fun _ => true)
        (syC3.sync true (fun _ => true) wC3 memC3 [[".bashrc"]]).2.1
        (syC3.sync true (fun _ => true) wC3 memC3 [[".bashrc"]]).2.2
        [[".bashrc"]]).2.1).files "home/.bashrc" =
      some ("# Source personal configs\nsource \"cfg/.bashrc\"\n\n" ++
        "# Source personal configs\nsource \"cfg/.bashrc\"") ∧
    some ("# Source personal configs\nsource \"cfg/.bashrc\"\n\n" ++
        "# Source personal configs\nsource \"cfg/.bashrc\"") ≠
      (some "# Source personal configs\nsource \"cfg/.bashrc\"" : Option String) :=
  ⟨rfl, by decide, by decide, by decide⟩

def wW3 : World :=
  World.mk (fun q => if q = "cfg/.bashrc" then some "echo hi" else
    if q = "home/.bashrc" then some "alias a=b\n" else none) (fun _ => false) (fun _ => none)

/-- Witness for the amended C3 at a concrete instance with an existing target. -/
theorem C3_prepend_idempotent_existing_witness :
    (wW3.files (targetPathOf syC3 [".bashrc"]) = some "alias a=b\n" ∧
      syC3.resolvePolicy [".bashrc"] = Policy.PREPEND_SOURCE_STATEMENT) ∧
    (syC3.sync true (fun _ => true)
        (syC3.sync true (fun _ => true) wW3 memC3 [[".bashrc"]]).2.1
        (syC3.sync true (fun _ => true) wW3 memC3 [[".bashrc"]]).2.2 [[".bashrc"]]).2.1.files
      (targetPathOf syC3 [".bashrc"]) =
      ((syC3.sync true (fun _ => true) wW3 memC3 [[".bashrc"]]).2.1).files
        (targetPathOf syC3 [".bashrc"]) :=
  ⟨⟨by decide, by decide⟩,
    (C3_prepend_idempotent_existing syC3 (fun _ => true) wW3 memC3 [".bashrc"] "echo hi"
      "alias a=b\n" (StateEntry.mk "echo hi" "t1" "r1") (by decide) (by decide) (by decide)
      (by decide) (by decide) (by decide) (by decide) (by decide) (by decide)
      (by decide)).2.2.2.2⟩
